import Mathlib

/-!
Verification development for the dev-task pipeline of this repository
(`automations/dev-tasks/task_manager.py` and
`automations/dev-tasks/dev_orchestrator.py`).

Strings are modelled as `List Char` (`Str`), files as lists of lines
(`List Str`).  The markdown task format, its regex-based parser, the
task-store operations and the pipeline controller are translated
definition by definition from the Python source.  Machine state that the
Python code keeps in JSON files is threaded explicitly.
-/

set_option maxRecDepth 4000

namespace DevTasks

/-- Strings as character lists, for ease of structural reasoning. -/
abbrev Str := List Char

/-- Embed a Lean string literal into the `Str` model. -/
def strL (s : String) : Str := s.data

/-- Python `\s` on a single character (`re` with `str` patterns matches
unicode whitespace; `Char.isWhitespace` is the analogue). -/
def isSp (c : Char) : Bool := c.isWhitespace

/-- Drop leading whitespace (a `\s*` at the current position). -/
def dropSp (s : Str) : Str := s.dropWhile isSp

/-- Python `str.strip()`: remove leading whitespace. -/
def trimL (s : Str) : Str := s.dropWhile isSp

/-- Python `str.strip()`: remove trailing whitespace. -/
def trimR (s : Str) : Str := (s.reverse.dropWhile isSp).reverse

/-- Python `str.strip()`. -/
def trim (s : Str) : Str := trimR (trimL s)

/-- Split a string into lines at `'\n'`, like the line structure that
`re.MULTILINE` anchors (`^`/`$`) induce on a Python string.  Always
returns at least one (possibly empty) line. -/
def splitLines : Str → List Str
  | [] => [[]]
  | c :: r =>
    if c = '\n' then [] :: splitLines r
    else
      match splitLines r with
      | [] => [[c]]
      | l :: ls => (c :: l) :: ls

/-- Join lines with `'\n'` (inverse direction of `splitLines`; used for
the `body` string that `parse_tasks` hands to `.strip()`). -/
def joinLines (ls : List Str) : Str := List.intercalate ['\n'] ls

/-- One task record (`task_manager.Task`). -/
structure Task where
  id : Str
  title : Str
  priority : Str
  project : Str
  created : Str
  context : Str
  agent_session : Option Str := none
  started_at : Option Str := none
  blocked_reason : Option Str := none
  completed_at : Option Str := none
  result : Option Str := none
  deriving DecidableEq, Repr

/-!  ### The markdown parser (`parse_tasks` / `_extract_field`)

The task-header regex is `^## \[(P[0-3])\] (.+?)$` (MULTILINE) and the
field regex is `^\s*-?\s*\*?\*?FIELD\*?\*?:\s*(.+?)$` (MULTILINE,
IGNORECASE).  Both are anchored to a line, so they are modelled line by
line.  The lazy capture `(.+?)$` must reach the end of the line, hence it
captures the whole rest of the line and requires it to be non-empty. -/

/-- Match one line against `^## \[(P[0-3])\] (.+?)$`, returning the
priority token and the raw (unstripped) title capture. -/
def matchHeader : Str → Option (Str × Str)
  | '#' :: '#' :: ' ' :: '[' :: 'P' :: d :: ']' :: ' ' :: rest =>
    if (d = '0' ∨ d = '1' ∨ d = '2' ∨ d = '3') ∧ rest ≠ [] then
      some (['P', d], rest)
    else none
  | _ => none

/-- Case-insensitive literal prefix match (the field name inside the
field regex, compiled with `re.IGNORECASE`). -/
def stripCIPrefixOf : Str → Str → Option Str
  | [], s => some s
  | _ :: _, [] => none
  | f :: fs, c :: cs => if f.toLower = c.toLower then stripCIPrefixOf fs cs else none

/-- `\*?\*?` — up to two literal stars, matched greedily.  Greedy is
equivalent to the regex here because every use is followed by a pattern
whose first character is never `'*'` (a field name or `':'`), so a parse
that fails after consuming the maximal run of stars also fails after any
shorter run. -/
def dropStars2 : Str → Str
  | '*' :: '*' :: r => r
  | '*' :: r => r
  | s => s

/-- The `re.sub(r'^\*\*\s*', '', value)` step of `_extract_field`. -/
def stripBoldMarker : Str → Str
  | '*' :: '*' :: r => dropSp r
  | v => v

/-- Match the anchored prefix `^\s*-?\s*\*?\*?FIELD\*?\*?:` of the field
regex against one line, returning the rest of the line after the `':'`.
The field name and the `':'` cannot span lines (no `\s` is allowed between
them), so this part is genuinely line-local. -/
def fieldAnchor (field : Str) (line : Str) : Option Str :=
  let l1 := dropSp line
  let l2 := match l1 with
    | '-' :: r => r
    | _ => l1
  let l3 := dropSp l2
  let l4 := dropStars2 l3
  match stripCIPrefixOf field l4 with
  | none => none
  | some l5 =>
    match dropStars2 l5 with
    | ':' :: l7 => some l7
    | _ => none

/-- First line (starting with the rest `r` of the matched line) that
contains a non-whitespace character. -/
def firstContent : List Str → Option Str
  | [] => none
  | l :: ls => if dropSp l = [] then firstContent ls else some l

/-- The tail `\s*(.+?)$` of the field regex, matching from just after the
`':'`.  Python's `\s` includes `'\n'`, so the greedy `\s*` runs across
line breaks: the capture is taken from the first later non-whitespace
character to the end of *its* line (then `.strip()`-ped and stripped of a
leading `'**'`).  If everything after the `':'` is whitespace, the match
still succeeds with a value that strips to empty — unless it is all
newlines (or nothing), in which case `.+?` can never match and the regex
fails on this anchor (and, all remaining lines being empty, everywhere). -/
def fieldValueFrom (r : Str) (rest : List Str) : Option Str :=
  match firstContent (r :: rest) with
  | some l => some (stripBoldMarker (trim l))
  | none => if (r :: rest).all (· = []) then none else some []

/-- `re.search` of the field regex over the body lines: the first anchor
line whose field prefix matches wins (even if its value is empty). -/
def extractField (field : Str) : List Str → Option Str
  | [] => none
  | l :: ls =>
    match fieldAnchor field l with
    | some r => fieldValueFrom r ls
    | none => extractField field ls

/-- `_extract_field(body, f) or ...`: an empty extracted value is falsy in
Python, so it behaves like no value at all in every caller. -/
def getField (field : Str) (body : List Str) : Option Str :=
  match extractField field body with
  | some v => if v = [] then none else some v
  | none => none

/-- Build a `Task` from one parsed block, mirroring the body of the loop
in `parse_tasks`.  `freshId` stands for the `str(uuid.uuid4())[:8]`
default and `today` for `datetime.now().strftime("%Y-%m-%d")`; both are
threaded as parameters to keep the model deterministic. -/
def mkTask (freshId today : Str) (priority title : Str) (body : List Str) : Task :=
  { id := (getField (strL "ID") body).getD freshId
    title := trim title
    priority := priority
    project := (getField (strL "Project") body).getD (strL "unknown")
    created := (getField (strL "Created") body).getD today
    context := (getField (strL "Context") body).getD (trim (joinLines body))
    agent_session := getField (strL "Agent") body
    started_at := getField (strL "Started") body
    blocked_reason := getField (strL "Blocked") body
    completed_at := getField (strL "Completed") body
    result := getField (strL "Result") body }

/-- Scanner over the file's lines: `re.split` on the MULTILINE header
regex yields the text before the first header (dropped) and then
(priority, title, body) triples; equivalently, each header line opens a
block whose body is every following line up to the next header. -/
def scanAux : List Str → Option (Str × Str × List Str) → List (Str × Str × List Str)
  | [], none => []
  | [], some (p, t, b) => [(p, t, b.reverse)]
  | l :: ls, cur =>
    match matchHeader l with
    | some (p, t) =>
      match cur with
      | none => scanAux ls (some (p, t, []))
      | some (p0, t0, b0) => (p0, t0, b0.reverse) :: scanAux ls (some (p, t, []))
    | none =>
      match cur with
      | none => scanAux ls none
      | some (p0, t0, b0) => scanAux ls (some (p0, t0, l :: b0))

/-- `parse_tasks` over a file given as its list of lines. -/
def parse_tasks (freshId today : Str) (lines : List Str) : List Task :=
  (scanAux lines none).map (fun b => mkTask freshId today b.1 b.2.1 b.2.2)

/-!  ### Serialization (`format_task` / `write_tasks`) -/

/-- The line strings built by `format_task`, in source order.  A value
containing `'\n'` would span several physical lines; `fileLines` re-splits
each built string so the line model stays faithful. -/
def formatRaw (t : Task) : List Str :=
  [strL "## [" ++ t.priority ++ strL "] " ++ t.title,
   strL "- ID: " ++ t.id,
   strL "- Project: " ++ t.project,
   strL "- Created: " ++ t.created]
  ++ (match t.started_at with | some v => [strL "- Started: " ++ v] | none => [])
  ++ (match t.agent_session with | some v => [strL "- Agent: " ++ v] | none => [])
  ++ (match t.blocked_reason with | some v => [strL "- Blocked: " ++ v] | none => [])
  ++ (match t.completed_at with | some v => [strL "- Completed: " ++ v] | none => [])
  ++ (match t.result with | some v => [strL "- Result: " ++ v] | none => [])
  ++ [strL "- Context: " ++ t.context, []]

/-- `write_tasks`: `header + "\n\n" + "\n".join(format_task(t) for t in
tasks)`, as lines.  Joining strings with `'\n'` and then splitting into
lines is the same as concatenating the per-string line lists, hence the
`flatMap splitLines`. -/
def fileLines (header : List Str) (ts : List Task) : List Str :=
  header ++ [[]] ++
    (match ts with
     | [] => [[]]
     | _ => (ts.flatMap formatRaw).flatMap splitLines)

/-- Header of `BACKLOG.md` (`_get_header`). -/
def backlogHeader : List Str :=
  [strL "# Dev Task Backlog", [],
   strL "Prioritized queue of development tasks. P0 = critical, P3 = low priority."]

/-- Header of `IN-PROGRESS.md`. -/
def inProgressHeader : List Str :=
  [strL "# Tasks In Progress", [],
   strL "Currently being worked on by agents or manually."]

/-- Header of `BLOCKED.md`. -/
def blockedHeader : List Str :=
  [strL "# Blocked Tasks", [],
   strL "Tasks waiting on external input or dependencies."]

/-- Header of `DONE.md`. -/
def doneHeader : List Str :=
  [strL "# Completed Tasks", [],
   strL "Rolling log of finished work."]

/-- Lexicographic `≤` on strings, as Python compares `str` keys. -/
def lexLe : Str → Str → Bool
  | [], _ => true
  | _ :: _, [] => false
  | a :: as', b :: bs' =>
    if a < b then true
    else if b < a then false
    else lexLe as' bs'

/-- `tasks.sort(key=lambda t: t.priority)` — a stable sort by the
priority string. -/
def sortTasks (ts : List Task) : List Task :=
  ts.insertionSort (fun a b => lexLe a.priority b.priority = true)

/-- `add_task` at the file level: parse the backlog, append the new task,
sort by priority, rewrite the file.  `freshId` and `today` stand for the
generated uuid fragment and current date. -/
def add_task (freshId today : Str) (title project priority context : Str)
    (backlog : List Str) : Task × List Str :=
  let task : Task :=
    { id := freshId, title := title, priority := priority, project := project,
      created := today, context := context }
  let tasks := parse_tasks freshId today backlog ++ [task]
  (task, fileLines backlogHeader (sortTasks tasks))

/-!  ### The task store at the record level

The four queue files always hold the serialization of a list of task
records; the orchestrator's interaction with the store factors through
`parse_tasks`/`write_tasks`.  For the store operations and the pipeline
controller the queues are therefore modelled as the lists of records
themselves (the text layer is exercised separately above).  `move_task`
mirrors the Python control flow exactly: both queues are read first, the
source queue is rewritten, then the destination queue — so a move with
`from == to` leaves the destination write (which still contains the moved
task) as the final contents. -/

/-- One of the four queue files. -/
inductive QName where
  | backlog | inProgress | blocked | done
  deriving DecidableEq, Repr

/-- The durable task store: four queues of task records. -/
structure Queues where
  backlog : List Task := []
  inProgress : List Task := []
  blocked : List Task := []
  done : List Task := []
  deriving DecidableEq, Repr

/-- Read a queue. -/
def Queues.get (qs : Queues) : QName → List Task
  | .backlog => qs.backlog
  | .inProgress => qs.inProgress
  | .blocked => qs.blocked
  | .done => qs.done

/-- Overwrite a queue (one `write_tasks` call). -/
def Queues.set (qs : Queues) : QName → List Task → Queues
  | .backlog, l => { qs with backlog := l }
  | .inProgress, l => { qs with inProgress := l }
  | .blocked, l => { qs with blocked := l }
  | .done, l => { qs with done := l }

/-- The field updates passed to `move_task` by its callers (`updates`
dicts whose keys are the lifecycle attributes of `Task`; unknown keys
would be ignored by the `hasattr` guard and no caller passes any). -/
structure FieldUpdates where
  started_at : Option Str := none
  blocked_reason : Option Str := none
  completed_at : Option Str := none
  result : Option Str := none
  deriving DecidableEq, Repr

/-- `setattr(task, key, value)` for each provided update. -/
def applyUpdates (u : FieldUpdates) (t : Task) : Task :=
  { t with
    started_at := match u.started_at with | some v => some v | none => t.started_at
    blocked_reason := match u.blocked_reason with | some v => some v | none => t.blocked_reason
    completed_at := match u.completed_at with | some v => some v | none => t.completed_at
    result := match u.result with | some v => some v | none => t.result }

/-- The `ValueError` message of `move_task` (the model does not render the
file path). -/
def moveNotFoundMsg (task_id : Option Str) : Str :=
  strL "Task " ++ (match task_id with | some t => t | none => strL "None") ++
    strL " not found"

/-- `move_task(task_id, from_file, to_file, updates)`.  `task_id` is an
`Option` because the orchestrator passes `state.current_task_id`, which
may be `None` (then no task record ever matches and the call raises).
The Python loop keeps the *last* record whose id matches and removes
*all* matching records from the source; the moved task is prepended to
the destination list that was parsed *before* the source was rewritten.
On failure the exception propagates before any write: the queues are
returned unchanged next to the error. -/
def move_task (task_id : Option Str) (fromQ toQ : QName) (upd : FieldUpdates)
    (qs : Queues) : Except Str Task × Queues :=
  let fromTasks := qs.get fromQ
  let toTasks := qs.get toQ
  let matches' := fromTasks.filter (fun t => some t.id = task_id)
  let remaining := fromTasks.filter (fun t => ¬ some t.id = task_id)
  match matches'.getLast? with
  | none => (.error (moveNotFoundMsg task_id), qs)
  | some task =>
    let task := applyUpdates upd task
    let qs1 := qs.set fromQ remaining
    let qs2 := qs1.set toQ (task :: toTasks)
    (.ok task, qs2)

/-- Total number of task records across the four queues. -/
def totalTasks (qs : Queues) : Nat :=
  qs.backlog.length + qs.inProgress.length + qs.blocked.length + qs.done.length

/-!  ### The pipeline controller (`dev_orchestrator.py`) -/

/-- `PipelineState` — the single persisted pipeline record.
`completed_tasks` entries are the `{"id": ..., "title": ...}` dicts
appended by `after_commit`. -/
structure PipelineState where
  status : Str := strL "idle"
  current_task_id : Option Str := none
  current_task_title : Option Str := none
  project : Option Str := none
  verify_attempts : Nat := 0
  max_verify_attempts : Nat := 3
  impl_session_key : Option Str := none
  verify_session_key : Option Str := none
  batch_started_at : Option Str := none
  completed_tasks : List (Option Str × Option Str) := []
  failed_task : Option Str := none
  error_message : Option Str := none
  deriving DecidableEq, Repr

/-- The freshly constructed `PipelineState()` (used by `reset` and as the
very first persisted state). -/
def initPS : PipelineState := {}

/-- Ambient values the Python code obtains from the clock
(`datetime.now().isoformat()`). -/
structure Env where
  now : Str
  deriving Repr

/-- Per-project configuration; only the repo path is load-bearing for the
control flow (the other entries feed the prompt text, which is not part
of the contract). -/
structure ProjConfig where
  repo_path : Option Str
  deriving DecidableEq, Repr

/-- `get_project_config` over `PROJECT_CONFIGS` (falling back to
`"default"`, whose `repo_path` is `None`). -/
def get_project_config (project : Str) : ProjConfig :=
  if project = strL "decent-cloud" then { repo_path := some (strL "/projects/decent-cloud") }
  else if project = strL "voki" then { repo_path := some (strL "/projects/voice-ai-agent") }
  else { repo_path := none }

/-- `get_approved_tasks()`: the P0/P1 tasks of the backlog, in order. -/
def get_approved_tasks (qs : Queues) : List Task :=
  qs.backlog.filter (fun t => t.priority = strL "P0" ∨ t.priority = strL "P1")

/-- Result of `check_uncommitted_work` — an external `git status` query,
supplied as an oracle to `resume`. -/
structure GitStatus where
  has_changes : Bool
  changed_files : List Str
  deriving DecidableEq, Repr

/-- The structured JSON records returned by the orchestrator commands.
Prompt strings, repo paths and `next_step` hints are elided (the spec
treats the prompt wording as non-contractual); every key the claims
mention is kept. -/
inductive RDict where
  | errorRes (msg : Str)
  | skipBusy (reason : Str) (current : Option Str)
  | skipNoTasks (reason : Str)
  | preflightRes (taskId taskTitle project : Str)
  | implementRes (taskId : Str)
  | verifyRes (taskId : Str) (attempt : Nat)
  | commitRes (taskId : Str)
  | stopRes (reason : Str) (taskId : Option Str)
  | batchDone (completed : List (Option Str × Option Str))
  | statusRes (st : PipelineState)
  | resetRes
  | noResume (reason proceedWith : Str) (autoReset : Bool) (suggestion : Option Str)
  | resumeRes (taskId taskTitle project previousState : Str)
      (verifyAttempts : Nat) (files : List Str)
  deriving DecidableEq, Repr

/-- How a command invocation terminates: with a returned record, or with
an uncaught Python exception (`ValueError` out of `move_task`). -/
inductive Outcome where
  | ok (r : RDict)
  | exn (msg : Str)
  deriving DecidableEq, Repr

/-- Python `a or b` for an optional string argument: `None` and `""` both
fall back to the default. -/
def pyOr (o : Option Str) (dflt : Str) : Str :=
  match o with
  | some v => if v = [] then dflt else v
  | none => dflt

/-- Decimal rendering of a `Nat` (for the f-string interpolation of
`max_verify_attempts`). -/
def natStr (n : Nat) : Str := (Nat.repr n).data

/-- Each command returns its JSON record (or dies on an exception),
together with the persisted pipeline state and queue files as they are on
disk afterwards.  In-memory mutations that are never followed by
`save_pipeline_state` do not reach the returned state. -/
abbrev CmdOut := Outcome × PipelineState × Queues

/-- `start_batch()`. -/
def start_batch (env : Env) (ps : PipelineState) (qs : Queues) : CmdOut :=
  if ¬ (ps.status = strL "idle" ∨ ps.status = strL "done" ∨ ps.status = strL "failed") then
    (.ok (.skipBusy (strL "Pipeline already in progress: " ++ ps.status) ps.current_task_id),
      ps, qs)
  else
    match get_approved_tasks qs with
    | [] => (.ok (.skipNoTasks (strL "No approved tasks (P0/P1) in backlog")), ps, qs)
    | task :: _ =>
      let ps' : PipelineState :=
        { ps with
          status := strL "preflight"
          current_task_id := some task.id
          current_task_title := some task.title
          project := some task.project
          verify_attempts := 0
          impl_session_key := none
          verify_session_key := none
          batch_started_at := some env.now
          completed_tasks := []
          failed_task := none
          error_message := none }
      (.ok (.preflightRes task.id task.title task.project), ps', qs)

/-- `after_preflight(success, error)`. -/
def after_preflight (env : Env) (success : Bool) (error : Option Str)
    (ps : PipelineState) (qs : Queues) : CmdOut :=
  if ps.status ≠ strL "preflight" then
    (.ok (.errorRes (strL "Unexpected state: " ++ ps.status)), ps, qs)
  else if ¬ success then
    let msg := pyOr error (strL "Preflight failed")
    let ps' := { ps with status := strL "failed", failed_task := ps.current_task_id,
                         error_message := some msg }
    (.ok (.stopRes msg ps.current_task_id), ps', qs)
  else
    match move_task ps.current_task_id .backlog .inProgress
        { started_at := some env.now } qs with
    | (.error e, _) => (.exn e, ps, qs)
    | (.ok _, qs1) =>
      let ps' := { ps with status := strL "implementing" }
      match (qs1.get .inProgress).find? (fun t => some t.id = ps.current_task_id) with
      | none =>
        (.ok (.errorRes (strL "Task not found in IN_PROGRESS")), ps', qs1)
      | some task => (.ok (.implementRes task.id), ps', qs1)

/-- `after_implementation(success, session_key, error)`. -/
def after_implementation (success : Bool) (session error : Option Str)
    (ps : PipelineState) (qs : Queues) : CmdOut :=
  if ps.status ≠ strL "implementing" then
    (.ok (.errorRes (strL "Unexpected state: " ++ ps.status)), ps, qs)
  else if ¬ success then
    let msg := pyOr error (strL "Implementation failed")
    let ps' := { ps with status := strL "failed", failed_task := ps.current_task_id,
                         error_message := some msg }
    match move_task ps.current_task_id .inProgress .blocked
        { blocked_reason := some msg } qs with
    | (.error e, _) => (.exn e, ps', qs)
    | (.ok _, qs1) => (.ok (.stopRes msg ps.current_task_id), ps', qs1)
  else
    let ps' := { ps with impl_session_key := session, status := strL "verifying",
                         verify_attempts := 1 }
    match (qs.get .inProgress).find? (fun t => some t.id = ps.current_task_id) with
    | none => (.ok (.errorRes (strL "Task not found in IN_PROGRESS")), ps', qs)
    | some task => (.ok (.verifyRes task.id ps'.verify_attempts), ps', qs)

/-- `after_verification(result, session_key)`.  Any verdict other than
`"clean"` and `"changes_made"` takes the `blocked` branch.  Note that the
in-memory `verify_session_key` assignment only becomes durable on the
branches that reach `save_pipeline_state`. -/
def after_verification (result : Str) (session : Option Str)
    (ps : PipelineState) (qs : Queues) : CmdOut :=
  if ps.status ≠ strL "verifying" then
    (.ok (.errorRes (strL "Unexpected state: " ++ ps.status)), ps, qs)
  else
    let ps1 := { ps with verify_session_key := session }
    match (qs.get .inProgress).find? (fun t => some t.id = ps.current_task_id) with
    | none => (.ok (.errorRes (strL "Task not found")), ps, qs)
    | some task =>
      if result = strL "clean" then
        let ps' := { ps1 with status := strL "committing" }
        (.ok (.commitRes task.id), ps', qs)
      else if result = strL "changes_made" then
        if ps.verify_attempts ≥ ps.max_verify_attempts then
          let msg := strL "Verification failed after " ++ natStr ps.max_verify_attempts ++
            strL " attempts"
          let ps' := { ps1 with status := strL "failed",
                                failed_task := ps.current_task_id,
                                error_message := some msg }
          match move_task ps.current_task_id .inProgress .blocked
              { blocked_reason := some msg } qs with
          | (.error e, _) => (.exn e, ps', qs)
          | (.ok _, qs1) => (.ok (.stopRes msg (some task.id)), ps', qs1)
        else
          let ps' := { ps1 with verify_attempts := ps.verify_attempts + 1 }
          (.ok (.verifyRes task.id ps'.verify_attempts), ps', qs)
      else
        let msg := strL "Verification found blocking issues"
        let ps' := { ps1 with status := strL "failed",
                              failed_task := ps.current_task_id,
                              error_message := some msg }
        match move_task ps.current_task_id .inProgress .blocked
            { blocked_reason := some msg } qs with
        | (.error e, _) => (.exn e, ps', qs)
        | (.ok _, qs1) => (.ok (.stopRes msg (some task.id)), ps', qs1)

/-- `after_commit(success, error)`. -/
def after_commit (env : Env) (success : Bool) (error : Option Str)
    (ps : PipelineState) (qs : Queues) : CmdOut :=
  if ps.status ≠ strL "committing" then
    (.ok (.errorRes (strL "Unexpected state: " ++ ps.status)), ps, qs)
  else if ¬ success then
    let msg := pyOr error (strL "Commit failed")
    let ps' := { ps with status := strL "failed", failed_task := ps.current_task_id,
                         error_message := some msg }
    (.ok (.stopRes msg none), ps', qs)
  else
    match move_task ps.current_task_id .inProgress .done
        { completed_at := some env.now,
          result := some (strL "Implemented and verified automatically") } qs with
    | (.error e, _) => (.exn e, ps, qs)
    | (.ok _, qs1) =>
      let completed := ps.completed_tasks ++ [(ps.current_task_id, ps.current_task_title)]
      match get_approved_tasks qs1 with
      | task :: _ =>
        match move_task (some task.id) .backlog .inProgress
            { started_at := some env.now } qs1 with
        | (.error e, _) => (.exn e, ps, qs1)
        | (.ok _, qs2) =>
          let ps' := { ps with
            completed_tasks := completed
            status := strL "implementing"
            current_task_id := some task.id
            current_task_title := some task.title
            project := some task.project
            verify_attempts := 0
            impl_session_key := none
            verify_session_key := none }
          (.ok (.implementRes task.id), ps', qs2)
      | [] =>
        let ps' := { ps with completed_tasks := completed, status := strL "done" }
        (.ok (.batchDone completed), ps', qs1)

/-- `get_status()`. -/
def get_status (ps : PipelineState) (qs : Queues) : CmdOut :=
  (.ok (.statusRes ps), ps, qs)

/-- `reset()`. -/
def reset (qs : Queues) : CmdOut :=
  (.ok .resetRes, initPS, qs)

/-- The task `resume` locates: `current_task_id` looked up in
`IN-PROGRESS.md` first, then in `BACKLOG.md`. -/
def resume_lookup (ps : PipelineState) (qs : Queues) : Option Task :=
  ((qs.get .inProgress).find? (fun t => some t.id = ps.current_task_id)).orElse
    (fun _ => (qs.get .backlog).find? (fun t => some t.id = ps.current_task_id))

/-- `resume()`, with the outcome of `check_uncommitted_work` supplied as
an oracle (it shells out to `git status`). -/
def resume (git : GitStatus) (ps : PipelineState) (qs : Queues) : CmdOut :=
  if (ps.status = strL "idle" ∨ ps.status = strL "done") ∨ ps.current_task_id = none then
    (.ok (.noResume (strL "No partial work") (strL "start") false none), ps, qs)
  else
    match resume_lookup ps qs with
    | none =>
      (.ok (.noResume (strL "Task not found, resetting") (strL "start") true none), ps, qs)
    | some task =>
      match (get_project_config task.project).repo_path with
      | none =>
        (.ok (.noResume (strL "No repo path configured") (strL "start") false none), ps, qs)
      | some _ =>
        if ¬ git.has_changes then
          (.ok (.noResume (strL "State has no uncommitted changes") (strL "start") false
            (some (strL "Previous work may have been lost or already committed"))), ps, qs)
        else
          (.ok (.resumeRes task.id task.title task.project ps.status ps.verify_attempts
            git.changed_files), ps, qs)

/-- The command surface, as invocations with their payloads. -/
inductive Cmd where
  | start
  | afterPreflight (success : Bool) (error : Option Str)
  | afterImplementation (success : Bool) (session error : Option Str)
  | afterVerification (result : Str) (session : Option Str)
  | afterCommit (success : Bool) (error : Option Str)
  | status
  | reset
  | resume (git : GitStatus)

/-- Dispatch one external invocation. -/
def step (env : Env) (c : Cmd) (ps : PipelineState) (qs : Queues) : CmdOut :=
  match c with
  | .start => start_batch env ps qs
  | .afterPreflight s e => after_preflight env s e ps qs
  | .afterImplementation s k e => after_implementation s k e ps qs
  | .afterVerification r k => after_verification r k ps qs
  | .afterCommit s e => after_commit env s e ps qs
  | .status => get_status ps qs
  | .reset => reset qs
  | .resume g => resume g ps qs

/-- Persisted pipeline states reachable through the command surface.
`dev_orchestrator.py` is the only writer of the pipeline-state file; the
queue files may be changed arbitrarily between invocations (by
`add_task`, hand edits, …), so each step runs against unconstrained
queues. -/
inductive ReachablePS : PipelineState → Prop where
  | init : ReachablePS initPS
  | step (env : Env) (c : Cmd) (qs : Queues) {ps : PipelineState} :
      ReachablePS ps → ReachablePS (step env c ps qs).2.1

/-!  ## Generic lemmas about the store -/

/-- Rewriting the same queue twice keeps only the second write. -/
theorem Queues.set_set (qs : Queues) (q : QName) (a b : List Task) :
    (qs.set q a).set q b = qs.set q b := by
  cases q <;> rfl

/-- Reading back a just-written queue. -/
theorem Queues.get_set_self (qs : Queues) (q : QName) (l : List Task) :
    (qs.set q l).get q = l := by
  cases q <;> rfl

/-- An empty update dict leaves the task unchanged. -/
theorem applyUpdates_empty (t : Task) : applyUpdates {} t = t := rfl

/-- A list whose filtering is a singleton has that element as first match. -/
theorem find?_of_filter_singleton {α} (p : α → Bool) :
    ∀ {l : List α} {a : α}, l.filter p = [a] → l.find? p = some a := by
  intro l
  induction l with
  | nil => intro a h; simp at h
  | cons x xs ih =>
    intro a h
    by_cases hx : p x
    · rw [List.filter_cons_of_pos hx] at h
      obtain ⟨rfl, h2⟩ := List.cons_eq_cons.mp h
      simp [List.find?_cons_of_pos _ hx]
    · rw [List.filter_cons_of_neg hx] at h
      rw [List.find?_cons_of_neg _ hx]
      exact ih h

/-- Splitting a length by a decidable predicate. -/
theorem length_filter_split {α} (p : α → Bool) (l : List α) :
    l.length = (l.filter p).length + (l.filter (fun x => ¬ p x)).length := by
  have := List.length_eq_length_filter_add (l := l) p
  simpa using this

/-!  ## C8 — `move` fails with NotFound and writes nothing when the id is
absent from the source queue -/

/-- **C8.**  `move(task_id, from, to, field_updates)` fails with the
NotFound error whenever `task_id` is absent from the `from` queue, and
the durable contents of every queue are unchanged (the exception is
raised before either write). -/
theorem move_task_notFound (task_id : Option Str) (fq tq : QName)
    (upd : FieldUpdates) (qs : Queues)
    (habs : ∀ t ∈ qs.get fq, ¬ some t.id = task_id) :
    move_task task_id fq tq upd qs = (.error (moveNotFoundMsg task_id), qs) := by
  have hf : (qs.get fq).filter (fun t => some t.id = task_id) = [] := by
    rw [List.filter_eq_nil_iff]
    intro t ht
    simpa using habs t ht
  simp [move_task, hf]

/-- Witness for C8 at a concrete store. -/
theorem move_task_notFound_witness :
    move_task (some (strL "zz")) .backlog .inProgress {}
        { backlog := [{ id := strL "t1", title := strL "T", priority := strL "P0",
                        project := strL "p", created := strL "d", context := strL "c" }] } =
      (.error (moveNotFoundMsg (some (strL "zz"))),
       { backlog := [{ id := strL "t1", title := strL "T", priority := strL "P0",
                       project := strL "p", created := strL "d", context := strL "c" }] }) :=
  move_task_notFound _ _ _ _ _ (by decide)

/-!  ## C10 — a move whose source and destination coincide duplicates the
task -/

/-- **C10.**  For every queue `Q` and task `t` present in `Q`,
`move(t.id, Q, Q, {})` succeeds and rewrites `Q` to the moved task
prepended to the *original* contents of `Q` (which still contain it): the
record is duplicated, and the four-queue total grows by one without any
crash. -/
theorem move_task_same_queue_duplicates (Q : QName) (t : Task) (qs : Queues)
    (h : t ∈ qs.get Q) :
    ∃ t', move_task (some t.id) Q Q {} qs = (.ok t', qs.set Q (t' :: qs.get Q)) ∧
      t'.id = t.id ∧
      totalTasks (qs.set Q (t' :: qs.get Q)) = totalTasks qs + 1 ∧
      2 ≤ ((qs.set Q (t' :: qs.get Q)).get Q).countP (fun u => u.id = t.id) := by
  have hmem : t ∈ (qs.get Q).filter (fun u => some u.id = some t.id) :=
    List.mem_filter.mpr ⟨h, by simp⟩
  have hne : (qs.get Q).filter (fun u => some u.id = some t.id) ≠ [] := by
    intro hnil; rw [hnil] at hmem; simp at hmem
  obtain ⟨t', ht'⟩ := Option.isSome_iff_exists.mp (List.getLast?_isSome.mpr hne)
  have ht'mem : t' ∈ (qs.get Q).filter (fun u => some u.id = some t.id) :=
    List.mem_of_mem_getLast? ht'
  have ht'id : t'.id = t.id := by
    have := (List.mem_filter.mp ht'mem).2
    simpa using this
  refine ⟨t', ?_, ht'id, ?_, ?_⟩
  · simp only [move_task, ht', applyUpdates_empty, Queues.set_set]
  · cases Q <;> simp [totalTasks, Queues.set, Queues.get] <;> omega
  · rw [Queues.get_set_self]
    have hpos : 0 < (qs.get Q).countP (fun u => u.id = t.id) :=
      List.countP_pos_iff.mpr ⟨t, h, by simp⟩
    rw [List.countP_cons]
    simp only [ht'id]
    simp only [decide_eq_true_eq, if_pos]
    omega

/-- Witness for C10 at a concrete store. -/
theorem move_task_same_queue_duplicates_witness :
    ∃ t', move_task (some (strL "t1")) .backlog .backlog {}
        { backlog := [{ id := strL "t1", title := strL "T", priority := strL "P0",
                        project := strL "p", created := strL "d", context := strL "c" }] } =
      (.ok t',
       Queues.set { backlog := [{ id := strL "t1", title := strL "T", priority := strL "P0",
                                  project := strL "p", created := strL "d", context := strL "c" }] }
         .backlog (t' :: [{ id := strL "t1", title := strL "T", priority := strL "P0",
                            project := strL "p", created := strL "d", context := strL "c" }])) ∧
      t'.id = strL "t1" := by
  obtain ⟨t', h1, h2, -⟩ :=
    move_task_same_queue_duplicates .backlog
      { id := strL "t1", title := strL "T", priority := strL "P0",
        project := strL "p", created := strL "d", context := strL "c" }
      { backlog := [{ id := strL "t1", title := strL "T", priority := strL "P0",
                      project := strL "p", created := strL "d", context := strL "c" }] }
      (by decide)
  exact ⟨t', h1, h2⟩

/-!  ## C3 — count invariance of `move` -/

/-- A concrete task for counterexamples. -/
def ceTask : Task :=
  { id := strL "t1", title := strL "T", priority := strL "P0",
    project := strL "p", created := strL "d", context := strL "c" }

/-- **C3, counterexample.**  A `move` whose `from` and `to` queues are the
same queue completes both writes with the task present, yet the four-queue
total goes from 1 to 2 — so count invariance does not hold for *every*
move with both writes completing. -/
theorem move_count_invariance_ce :
    (move_task (some ceTask.id) .backlog .backlog {} { backlog := [ceTask] }).1 =
        .ok ceTask ∧
    totalTasks { backlog := [ceTask] } = 1 ∧
    totalTasks (move_task (some ceTask.id) .backlog .backlog {}
        { backlog := [ceTask] }).2 = 2 ∧
    ¬ totalTasks (move_task (some ceTask.id) .backlog .backlog {}
        { backlog := [ceTask] }).2 = totalTasks { backlog := [ceTask] } := by
  refine ⟨rfl, rfl, rfl, by decide⟩

/-- **C3, amended.**  For every `move(task_id, from, to, field_updates)`
in which the `from` and `to` queues are distinct, `task_id` matches
exactly one record of the `from` queue, and both queue writes complete,
the total task count across the four queues is unchanged. -/
theorem move_task_count_invariant (task_id : Option Str) (fq tq : QName)
    (upd : FieldUpdates) (qs : Queues) (hne : fq ≠ tq)
    (hone : ((qs.get fq).filter (fun t => some t.id = task_id)).length = 1) :
    ∃ t qs', move_task task_id fq tq upd qs = (.ok t, qs') ∧
      totalTasks qs' = totalTasks qs := by
  obtain ⟨t0, ht0⟩ := List.length_eq_one.mp hone
  have hlast : ((qs.get fq).filter (fun t => some t.id = task_id)).getLast? = some t0 := by
    rw [ht0]; rfl
  have hsplit := length_filter_split (fun t => decide (some t.id = task_id)) (qs.get fq)
  rw [show ((qs.get fq).filter (fun t => decide (some t.id = task_id))) =
      ((qs.get fq).filter (fun t => some t.id = task_id)) from rfl, ht0] at hsplit
  refine ⟨applyUpdates upd t0,
    (qs.set fq ((qs.get fq).filter (fun t => ¬ some t.id = task_id))).set tq
      (applyUpdates upd t0 :: qs.get tq), ?_, ?_⟩
  · simp only [move_task, hlast]
  · cases fq <;> cases tq <;> simp_all [totalTasks, Queues.set, Queues.get] <;> omega

/-- Witness for the amended C3 at a concrete store. -/
theorem move_task_count_invariant_witness :
    ∃ t qs', move_task (some (strL "t1")) .backlog .inProgress {}
        { backlog := [ceTask] } = (.ok t, qs') ∧
      totalTasks qs' = totalTasks { backlog := [ceTask] } :=
  move_task_count_invariant (some (strL "t1")) .backlog .inProgress {}
    { backlog := [ceTask] } (by decide) (by decide)

/-!  ## C1 — out-of-state `after_*` calls fail with InvalidState and
mutate nothing -/

/-- **C1.**  Each `after_*` command checks the persisted status first:
when it is not the one status the command requires (`preflight`,
`implementing`, `verifying`, `committing` respectively) the call returns
the `{"error": "Unexpected state: ..."}` record and both the persisted
pipeline state and all four task queues are returned unchanged. -/
theorem invalid_state_no_mutation (env : Env) (ps : PipelineState) (qs : Queues)
    (s : Bool) (sess err : Option Str) (res : Str) :
    (ps.status ≠ strL "preflight" →
      after_preflight env s err ps qs =
        (.ok (.errorRes (strL "Unexpected state: " ++ ps.status)), ps, qs)) ∧
    (ps.status ≠ strL "implementing" →
      after_implementation s sess err ps qs =
        (.ok (.errorRes (strL "Unexpected state: " ++ ps.status)), ps, qs)) ∧
    (ps.status ≠ strL "verifying" →
      after_verification res sess ps qs =
        (.ok (.errorRes (strL "Unexpected state: " ++ ps.status)), ps, qs)) ∧
    (ps.status ≠ strL "committing" →
      after_commit env s err ps qs =
        (.ok (.errorRes (strL "Unexpected state: " ++ ps.status)), ps, qs)) := by
  refine ⟨fun h => ?_, fun h => ?_, fun h => ?_, fun h => ?_⟩
  · simp [after_preflight, h]
  · simp [after_implementation, h]
  · simp [after_verification, h]
  · simp [after_commit, h]

/-- Witness for C1: a commit verdict sent while the pipeline is idle. -/
theorem invalid_state_no_mutation_witness :
    after_commit { now := [] } true none initPS {} =
      (.ok (.errorRes (strL "Unexpected state: " ++ initPS.status)), initPS, ({} : Queues)) :=
  (invalid_state_no_mutation { now := [] } initPS {} true none none []).2.2.2 (by decide)

/-!  ## C6 — a failed commit records the error but moves nothing -/

/-- **C6.**  `after_commit(success=false)` in status `committing` sets the
status to `failed`, records the error message (the argument, or the
default `"Commit failed"`), and returns every task queue unchanged — in
particular the current task stays in InProgress and is not moved to
Blocked. -/
theorem after_commit_failure_frame (env : Env) (ps : PipelineState) (qs : Queues)
    (err : Option Str) (h : ps.status = strL "committing") :
    after_commit env false err ps qs =
      (.ok (.stopRes (pyOr err (strL "Commit failed")) none),
       { ps with status := strL "failed", failed_task := ps.current_task_id,
                 error_message := some (pyOr err (strL "Commit failed")) }, qs) := by
  simp [after_commit, h]

/-- Witness for C6 at a concrete state. -/
theorem after_commit_failure_frame_witness :
    after_commit { now := [] } false (some (strL "boom"))
        { initPS with status := strL "committing", current_task_id := some (strL "t1") }
        { inProgress := [ceTask] } =
      (.ok (.stopRes (pyOr (some (strL "boom")) (strL "Commit failed")) none),
       { initPS with status := strL "failed", current_task_id := some (strL "t1"),
                     failed_task := some (strL "t1"),
                     error_message := some (pyOr (some (strL "boom")) (strL "Commit failed")) },
       { inProgress := [ceTask] }) :=
  after_commit_failure_frame { now := [] }
    { initPS with status := strL "committing", current_task_id := some (strL "t1") }
    { inProgress := [ceTask] } (some (strL "boom")) (by decide)

/-!  ## C9 — `start_batch` restarts from idle, done *and* failed -/

/-- **C9.**  `start_batch` begins a new batch whenever the persisted
status is `idle`, `done` or `failed` (not only `idle`): it moves to
`preflight`, selects the first approved (P0/P1) backlog task without
moving it between queues, and clears `completed_tasks`, `failed_task` and
`error_message` from the prior batch.  From any of the four in-flight
statuses it returns a skip record and mutates nothing. -/
theorem start_batch_spec (env : Env) (ps : PipelineState) (qs : Queues) :
    ((ps.status = strL "idle" ∨ ps.status = strL "done" ∨ ps.status = strL "failed") →
      ∀ t ts, get_approved_tasks qs = t :: ts →
        start_batch env ps qs =
          (.ok (.preflightRes t.id t.title t.project),
           { ps with status := strL "preflight", current_task_id := some t.id,
                     current_task_title := some t.title, project := some t.project,
                     verify_attempts := 0, impl_session_key := none,
                     verify_session_key := none, batch_started_at := some env.now,
                     completed_tasks := [], failed_task := none,
                     error_message := none }, qs)) ∧
    ((ps.status = strL "preflight" ∨ ps.status = strL "implementing" ∨
      ps.status = strL "verifying" ∨ ps.status = strL "committing") →
      start_batch env ps qs =
        (.ok (.skipBusy (strL "Pipeline already in progress: " ++ ps.status)
          ps.current_task_id), ps, qs)) := by
  constructor
  · intro h t ts hts
    have hcond : ps.status = strL "idle" ∨ ps.status = strL "done" ∨
        ps.status = strL "failed" := h
    simp [start_batch, hcond, hts]
  · intro h
    have hcond : ¬ (ps.status = strL "idle" ∨ ps.status = strL "done" ∨
        ps.status = strL "failed") := by
      rcases h with h | h | h | h <;> rw [h] <;> decide
    simp [start_batch, hcond]

/-- Witness for C9: restarting from a `failed` state. -/
theorem start_batch_spec_witness :
    start_batch { now := strL "NOW" } { initPS with status := strL "failed" }
        { backlog := [ceTask] } =
      (.ok (.preflightRes ceTask.id ceTask.title ceTask.project),
       { initPS with status := strL "preflight", current_task_id := some ceTask.id,
                     current_task_title := some ceTask.title,
                     project := some ceTask.project, verify_attempts := 0,
                     impl_session_key := none, verify_session_key := none,
                     batch_started_at := some (strL "NOW"), completed_tasks := [],
                     failed_task := none, error_message := none },
       { backlog := [ceTask] }) :=
  (start_batch_spec { now := strL "NOW" } { initPS with status := strL "failed" }
      { backlog := [ceTask] }).1 (by decide) ceTask [] (by decide)

/-!  ## C2 — the bounded verification retry loop -/

/-- `max_verify_attempts` is never reassigned by any command, and
`verify_attempts` is only ever written as `0`, `1`, or incremented under
the `< max` guard, so every reachable persisted state satisfies both
bounds. -/
theorem reachablePS_bounds {ps : PipelineState} (h : ReachablePS ps) :
    ps.verify_attempts ≤ 3 ∧ ps.max_verify_attempts = 3 := by
  induction h with
  | init => exact ⟨Nat.le_of_lt (by decide), rfl⟩
  | step env c qs h ih =>
    obtain ⟨h1, h2⟩ := ih
    cases c
    all_goals simp only [step, start_batch, after_preflight, after_implementation,
      after_verification, after_commit, get_status, reset, resume, initPS]
    all_goals (repeat' split)
    all_goals (try simp_all)
    all_goals omega

/-- **C2.**  In status `verifying` with the (invariant) bound
`max_verify_attempts = 3`:
(1) an `after_verification("changes_made")` call with `verify_attempts <
3` and the current task present in InProgress increments
`verify_attempts` by exactly one, keeps the status `verifying`, and
re-issues verification;
(2) `verify_attempts ≤ 3` holds in every reachable persisted state;
(3) once `verify_attempts` has reached 3, `after_verification
("changes_made")` sets the status to `failed` and moves the current task
from InProgress to Blocked with the exhausted-retries reason
`"Verification failed after 3 attempts"`. -/
theorem verify_retry_spec :
    (∀ (sess : Option Str) (ps : PipelineState) (qs : Queues) (t : Task),
      ps.status = strL "verifying" → ps.max_verify_attempts = 3 →
      ps.verify_attempts < 3 →
      (qs.get .inProgress).find? (fun u => some u.id = ps.current_task_id) = some t →
      after_verification (strL "changes_made") sess ps qs =
        (.ok (.verifyRes t.id (ps.verify_attempts + 1)),
         { ps with verify_session_key := sess,
                   verify_attempts := ps.verify_attempts + 1 }, qs)) ∧
    (∀ ps : PipelineState, ReachablePS ps → ps.verify_attempts ≤ 3) ∧
    (∀ (sess : Option Str) (ps : PipelineState) (qs : Queues) (t : Task),
      ps.status = strL "verifying" → ps.max_verify_attempts = 3 →
      ps.verify_attempts = 3 →
      (qs.get .inProgress).filter (fun u => some u.id = ps.current_task_id) = [t] →
      after_verification (strL "changes_made") sess ps qs =
        (.ok (.stopRes (strL "Verification failed after 3 attempts") (some t.id)),
         { ps with verify_session_key := sess, status := strL "failed",
                   failed_task := ps.current_task_id,
                   error_message := some (strL "Verification failed after 3 attempts") },
         (qs.set .inProgress
            ((qs.get .inProgress).filter (fun u => ¬ some u.id = ps.current_task_id))).set
           .blocked
           ({ t with blocked_reason := some (strL "Verification failed after 3 attempts") }
             :: qs.get .blocked))) := by
  refine ⟨?_, ?_, ?_⟩
  · intro sess ps qs t hst hmax hlt hfind
    have hnot : ¬ ps.verify_attempts ≥ ps.max_verify_attempts := by omega
    simp [after_verification, hst, hfind, hnot]
    decide
  · intro ps h; exact (reachablePS_bounds h).1
  · intro sess ps qs t hst hmax heq hfilter
    have hfind : (qs.get .inProgress).find? (fun u => some u.id = ps.current_task_id)
        = some t := find?_of_filter_singleton _ hfilter
    have hge : ps.verify_attempts ≥ ps.max_verify_attempts := by omega
    have hmsg : strL "Verification failed after " ++ natStr ps.max_verify_attempts ++
        strL " attempts" = strL "Verification failed after 3 attempts" := by
      rw [hmax]; rfl
    have hlast : ((qs.get .inProgress).filter
        (fun u => some u.id = ps.current_task_id)).getLast? = some t := by
      rw [hfilter]; rfl
    simp only [after_verification, hst, hfind, hge, move_task, hlast, hmsg]
    simp [applyUpdates]
    decide

/-- Witness for C2, exercising all three conjuncts: part 1 at attempt 2,
part 2 at the initial state, part 3 at attempt 3. -/
theorem verify_retry_spec_witness :
    (after_verification (strL "changes_made") none
        { initPS with status := strL "verifying", current_task_id := some (strL "t1"),
                      verify_attempts := 2 }
        { inProgress := [ceTask] } =
      (.ok (.verifyRes (strL "t1") 3),
       { initPS with status := strL "verifying", current_task_id := some (strL "t1"),
                     verify_attempts := 3 }, { inProgress := [ceTask] })) ∧
    initPS.verify_attempts ≤ 3 ∧
    (after_verification (strL "changes_made") none
        { initPS with status := strL "verifying", current_task_id := some (strL "t1"),
                      verify_attempts := 3 }
        { inProgress := [ceTask] } =
      (.ok (.stopRes (strL "Verification failed after 3 attempts") (some (strL "t1"))),
       { initPS with status := strL "failed", current_task_id := some (strL "t1"),
                     verify_attempts := 3, failed_task := some (strL "t1"),
                     error_message := some (strL "Verification failed after 3 attempts") },
       { blocked := [{ ceTask with
           blocked_reason := some (strL "Verification failed after 3 attempts") }] })) := by
  refine ⟨?_, verify_retry_spec.2.1 initPS .init, ?_⟩
  · exact verify_retry_spec.1 none _ _ ceTask (by decide) (by decide) (by decide) (by decide)
  · have := verify_retry_spec.2.2 none
      { initPS with status := strL "verifying", current_task_id := some (strL "t1"),
                    verify_attempts := 3 }
      { inProgress := [ceTask] } ceTask (by decide) (by decide) (by decide) (by decide)
    simpa using this

/-!  ## C4 — do commands ever terminate in an unhandled fault? -/

/-- The filter underlying `move_task` is non-empty when some record
matches, so the move succeeds. -/
theorem move_task_ok_of_mem {task_id : Option Str} {fq : QName} (tq : QName)
    (upd : FieldUpdates) {qs : Queues}
    (h : ∃ t ∈ qs.get fq, some t.id = task_id) :
    ∃ t qs', move_task task_id fq tq upd qs = (.ok t, qs') := by
  obtain ⟨t, ht, hid⟩ := h
  have hmem : t ∈ (qs.get fq).filter (fun u => some u.id = task_id) :=
    List.mem_filter.mpr ⟨ht, by simpa using hid⟩
  have hne : (qs.get fq).filter (fun u => some u.id = task_id) ≠ [] := by
    intro hnil; rw [hnil] at hmem; simp at hmem
  obtain ⟨t', ht'⟩ := Option.isSome_iff_exists.mp (List.getLast?_isSome.mpr hne)
  exact ⟨applyUpdates upd t',
    (qs.set fq ((qs.get fq).filter (fun u => ¬ some u.id = task_id))).set tq
      (applyUpdates upd t' :: qs.get tq),
    by simp only [move_task, ht']⟩

/-- The preconditions under which no command can hit the uncaught
`ValueError` of `move_task`: the three handlers that move a task without
first looking it up must find the current task in the queue they move it
from. -/
def moveSafe (c : Cmd) (ps : PipelineState) (qs : Queues) : Prop :=
  match c with
  | .afterPreflight true _ =>
    ps.status = strL "preflight" →
      ∃ t ∈ qs.get .backlog, some t.id = ps.current_task_id
  | .afterImplementation false _ _ =>
    ps.status = strL "implementing" →
      ∃ t ∈ qs.get .inProgress, some t.id = ps.current_task_id
  | .afterCommit true _ =>
    ps.status = strL "committing" →
      ∃ t ∈ qs.get .inProgress, some t.id = ps.current_task_id
  | _ => True

/-- **C4, counterexample.**  `after_implementation(success=false)` issued
while the persisted status is `implementing` but the current task id is
absent from the InProgress queue propagates the `ValueError` raised by
`move_task` — the process dies with an unhandled fault instead of
returning a status record. -/
theorem command_unhandled_fault_ce :
    (step { now := [] } (.afterImplementation false none none)
        { initPS with status := strL "implementing", current_task_id := some (strL "t1") }
        {}).1 =
      .exn (moveNotFoundMsg (some (strL "t1"))) := rfl

/-- **C4, amended.**  Every command of the surface returns a structured
record — never an uncaught exception — *provided* the task moved by a
successful preflight, a failed implementation, or a successful commit is
present in the queue it is moved from (`moveSafe`); without that proviso
the counterexample above applies. -/
theorem command_total (env : Env) (c : Cmd) (ps : PipelineState) (qs : Queues)
    (hsafe : moveSafe c ps qs) :
    ∃ r ps' qs', step env c ps qs = (.ok r, ps', qs') := by
  cases c with
  | start =>
    simp only [step, start_batch]
    split
    · exact ⟨_, _, _, rfl⟩
    · split <;> exact ⟨_, _, _, rfl⟩
  | afterPreflight s e =>
    simp only [step, after_preflight]
    split
    · exact ⟨_, _, _, rfl⟩
    · cases s with
      | false => simp
      | true =>
        rw [if_neg (by simp)]
        simp only [moveSafe] at hsafe
        have hmove := move_task_ok_of_mem .inProgress
          { started_at := some env.now } (hsafe (by tauto))
        obtain ⟨t, qs', hmv⟩ := hmove
        rw [hmv]
        cases hf2 : (qs'.get .inProgress).find?
            (fun u => some u.id = ps.current_task_id) <;> simp [hf2]
  | afterImplementation s k e =>
    simp only [step, after_implementation]
    split
    · exact ⟨_, _, _, rfl⟩
    · cases s with
      | true =>
        rw [if_neg (by simp)]
        split <;> exact ⟨_, _, _, rfl⟩
      | false =>
        simp only [moveSafe] at hsafe
        have hmove := move_task_ok_of_mem .blocked
          { blocked_reason := some (pyOr e (strL "Implementation failed")) }
          (hsafe (by tauto))
        obtain ⟨t, qs', hmv⟩ := hmove
        simp [hmv]
  | afterVerification r k =>
    simp only [step, after_verification]
    split
    · exact ⟨_, _, _, rfl⟩
    · split
      · exact ⟨_, _, _, rfl⟩
      · rename_i t hfind
        have hmem : ∃ u ∈ qs.get .inProgress, some u.id = ps.current_task_id :=
          ⟨t, List.mem_of_find?_eq_some hfind, by
            simpa using List.find?_some hfind⟩
        split
        · exact ⟨_, _, _, rfl⟩
        · split
          · split
            · obtain ⟨t', qs', hmv⟩ := move_task_ok_of_mem .blocked _ hmem
              rw [hmv]
              simp
            · exact ⟨_, _, _, rfl⟩
          · obtain ⟨t', qs', hmv⟩ := move_task_ok_of_mem .blocked _ hmem
            rw [hmv]
            simp
  | afterCommit s e =>
    simp only [step, after_commit]
    split
    · exact ⟨_, _, _, rfl⟩
    · cases s with
      | false => simp
      | true =>
        rw [if_neg (by simp)]
        simp only [moveSafe] at hsafe
        obtain ⟨t1, qs1, hmv1⟩ := move_task_ok_of_mem .done
          { completed_at := some env.now,
            result := some (strL "Implemented and verified automatically") }
          (hsafe (by tauto))
        rw [hmv1]
        cases happ : get_approved_tasks qs1 with
        | nil => simp [happ]
        | cons t ts =>
          have hmem2 : ∃ u ∈ qs1.get .backlog, some u.id = some t.id := by
            refine ⟨t, ?_, rfl⟩
            have : t ∈ get_approved_tasks qs1 := by rw [happ]; exact List.mem_cons_self t ts
            exact (List.mem_filter.mp this).1
          obtain ⟨t2, qs2, hmv2⟩ := move_task_ok_of_mem .inProgress
            { started_at := some env.now } hmem2
          simp [happ, hmv2]
  | status => exact ⟨_, _, _, rfl⟩
  | reset => exact ⟨_, _, _, rfl⟩
  | resume g =>
    simp only [step, resume]
    split
    · exact ⟨_, _, _, rfl⟩
    · split
      · exact ⟨_, _, _, rfl⟩
      · split
        · exact ⟨_, _, _, rfl⟩
        · split <;> exact ⟨_, _, _, rfl⟩

/-- Witness for the amended C4 on a command with a non-trivial
precondition. -/
theorem command_total_witness :
    ∃ r ps' qs',
      step { now := strL "NOW" } (.afterImplementation false none none)
        { initPS with status := strL "implementing", current_task_id := some (strL "t1") }
        { inProgress := [ceTask] } = (.ok r, ps', qs') :=
  command_total { now := strL "NOW" } (.afterImplementation false none none)
    { initPS with status := strL "implementing", current_task_id := some (strL "t1") }
    { inProgress := [ceTask] }
    (by intro h; exact ⟨ceTask, by decide, by decide⟩)

/-!  ## C7 — the resume algorithm -/

/-- A task whose project has no configured repository path. -/
def strayTask : Task :=
  { id := strL "t1", title := strL "T", priority := strL "P0",
    project := strL "mystery", created := strL "d", context := strL "c" }

/-- **C7, counterexample.**  A current task found in InProgress while the
external workspace query reports uncommitted changes does *not* always
yield a resume bundle: when the task's project has no configured
repository path (here `"mystery"`), `resume` returns a no-resume record
without ever querying the workspace. -/
theorem resume_spec_ce :
    resume { has_changes := true, changed_files := [strL "f.rs"] }
        { initPS with status := strL "verifying", current_task_id := some (strL "t1") }
        { inProgress := [strayTask] } =
      (.ok (.noResume (strL "No repo path configured") (strL "start") false none),
       { initPS with status := strL "verifying", current_task_id := some (strL "t1") },
       { inProgress := [strayTask] }) := rfl

/-- **C7, amended.**  `resume()` follows the claimed algorithm with one
extra guard: (a) status `idle`/`done` or no current task id ⇒ no-resume;
(b) current task found in neither InProgress nor Backlog ⇒ no-resume
recommending a reset; (c) task found but its project has no configured
repository path ⇒ no-resume (the workspace is not queried); (d) task
found, repository configured, workspace reports no uncommitted changes ⇒
no-resume suggesting a fresh start; (e) task found, repository
configured, uncommitted changes present ⇒ a resume bundle naming the
prior status, the verify attempt count and the changed-file list. -/
theorem resume_spec (git : GitStatus) (ps : PipelineState) (qs : Queues) :
    (((ps.status = strL "idle" ∨ ps.status = strL "done") ∨ ps.current_task_id = none) →
      resume git ps qs =
        (.ok (.noResume (strL "No partial work") (strL "start") false none), ps, qs)) ∧
    (¬ ((ps.status = strL "idle" ∨ ps.status = strL "done") ∨ ps.current_task_id = none) →
      (resume_lookup ps qs = none →
        resume git ps qs =
          (.ok (.noResume (strL "Task not found, resetting") (strL "start") true none),
           ps, qs)) ∧
      (∀ t, resume_lookup ps qs = some t →
        ((get_project_config t.project).repo_path = none →
          resume git ps qs =
            (.ok (.noResume (strL "No repo path configured") (strL "start") false none),
             ps, qs)) ∧
        ((get_project_config t.project).repo_path ≠ none → git.has_changes = false →
          resume git ps qs =
            (.ok (.noResume (strL "State has no uncommitted changes") (strL "start") false
              (some (strL "Previous work may have been lost or already committed"))),
             ps, qs)) ∧
        ((get_project_config t.project).repo_path ≠ none → git.has_changes = true →
          resume git ps qs =
            (.ok (.resumeRes t.id t.title t.project ps.status ps.verify_attempts
              git.changed_files), ps, qs)))) := by
  constructor
  · intro h
    simp only [resume, if_pos h]
  · intro h
    refine ⟨fun hl => ?_, fun t hl => ⟨fun hrp => ?_, fun hrp hch => ?_, fun hrp hch => ?_⟩⟩
    · simp only [resume, if_neg h, hl]
    · simp only [resume, if_neg h, hl, hrp]
    · obtain ⟨rp, hrp'⟩ := Option.ne_none_iff_exists'.mp hrp
      simp only [resume, if_neg h, hl, hrp', hch]
      simp
    · obtain ⟨rp, hrp'⟩ := Option.ne_none_iff_exists'.mp hrp
      simp only [resume, if_neg h, hl, hrp', hch]
      simp

/-- Witness for the amended C7, exercising the resume-bundle branch. -/
theorem resume_spec_witness :
    resume { has_changes := true, changed_files := [strL "f.rs"] }
        { initPS with status := strL "verifying", current_task_id := some (strL "t1"),
                      verify_attempts := 2 }
        { inProgress := [{ ceTask with project := strL "decent-cloud" }] } =
      (.ok (.resumeRes (strL "t1") (strL "T") (strL "decent-cloud") (strL "verifying")
        2 [strL "f.rs"]),
       { initPS with status := strL "verifying", current_task_id := some (strL "t1"),
                     verify_attempts := 2 },
       { inProgress := [{ ceTask with project := strL "decent-cloud" }] }) := by
  have h := (resume_spec { has_changes := true, changed_files := [strL "f.rs"] }
      { initPS with status := strL "verifying", current_task_id := some (strL "t1"),
                    verify_attempts := 2 }
      { inProgress := [{ ceTask with project := strL "decent-cloud" }] }).2
      (by decide)
  exact (h.2 { ceTask with project := strL "decent-cloud" } (by decide)).2.2
    (by decide) rfl

/-!  ## C5 — the add/list round trip

Helper facts about the line-level parser, leading to: a well-formed task
added by `add_task` is found intact by the next `parse_tasks`, whatever
else the backlog file contains. -/

/-- Values that survive the field regex unchanged: non-empty, on one
physical line, without surrounding whitespace. -/
def GoodCore (v : Str) : Prop :=
  v ≠ [] ∧ '\n' ∉ v ∧ dropSp v = v ∧ trimR v = v

/-- `GoodCore` plus surviving the `^\*\*\s*` bold-marker removal. -/
def GoodVal (v : Str) : Prop :=
  GoodCore v ∧ stripBoldMarker v = v

instance : DecidablePred GoodCore := fun v => by
  unfold GoodCore; infer_instance

instance : DecidablePred GoodVal := fun v => by
  unfold GoodVal; infer_instance

/-- `.strip()` of a core-good value is itself. -/
theorem trim_of_good {v : Str} (h : GoodCore v) : trim v = v := by
  obtain ⟨-, -, h3, h4⟩ := h
  show trimR (trimL v) = v
  rw [show trimL v = dropSp v from rfl, h3, h4]

/-- `.strip()` ignores one leading blank. -/
theorem trim_space_cons (v : Str) : trim (' ' :: v) = trim v := by
  show trimR (trimL (' ' :: v)) = trimR (trimL v)
  have : trimL (' ' :: v) = trimL v := by
    simp [trimL, List.dropWhile_cons, isSp]
  rw [this]

/-- The whole tail regex `\s*(.+?)$` on a good value preceded by the
single blank that `format_task` writes after the colon. -/
theorem fieldValueFrom_good {v : Str} (rest : List Str) (h : GoodVal v) :
    fieldValueFrom (' ' :: v) rest = some v := by
  obtain ⟨⟨hne, hnl, hds, htr⟩, hsb⟩ := h
  have h1 : dropSp (' ' :: v) = v := by
    show List.dropWhile isSp (' ' :: v) = v
    rw [List.dropWhile_cons, if_pos (by decide)]
    exact hds
  simp only [fieldValueFrom, firstContent, h1]
  rw [if_neg hne]
  show some (stripBoldMarker (trim (' ' :: v))) = some v
  rw [trim_space_cons, trim_of_good ⟨hne, hnl, hds, htr⟩, hsb]

/-- Search step: a line whose field prefix does not match is skipped. -/
theorem extractField_cons_none {f l : Str} {ls : List Str}
    (h : fieldAnchor f l = none) :
    extractField f (l :: ls) = extractField f ls := by
  simp [extractField, h]

/-- Search step: the first line whose field prefix matches ends the
search. -/
theorem extractField_cons_some {f l r : Str} {ls : List Str}
    (h : fieldAnchor f l = some r) :
    extractField f (l :: ls) = fieldValueFrom r ls := by
  simp [extractField, h]

/-- A non-empty extracted value is truthy. -/
theorem getField_of_value {f v : Str} {body : List Str}
    (h : extractField f body = some v) (hv : v ≠ []) :
    getField f body = some v := by
  simp [getField, h, hv]

/-- Format-line prefix facts (all independent of the embedded value). -/
theorem fp_project_self (v : Str) :
    fieldAnchor (strL "Project") (strL "- Project: " ++ v) = some (' ' :: v) := rfl

/-- The `Context` field matches its own format line. -/
theorem fp_context_self (v : Str) :
    fieldAnchor (strL "Context") (strL "- Context: " ++ v) = some (' ' :: v) := rfl

/-- The `Project` field regex does not match the ID line. -/
theorem fp_project_id (v : Str) :
    fieldAnchor (strL "Project") (strL "- ID: " ++ v) = none := rfl

/-- The `Context` field regex does not match the ID line. -/
theorem fp_context_id (v : Str) :
    fieldAnchor (strL "Context") (strL "- ID: " ++ v) = none := rfl

/-- The `Context` field regex does not match the Project line. -/
theorem fp_context_project (v : Str) :
    fieldAnchor (strL "Context") (strL "- Project: " ++ v) = none := rfl

/-- The `Context` field regex does not match the Created line. -/
theorem fp_context_created (v : Str) :
    fieldAnchor (strL "Context") (strL "- Created: " ++ v) = none := rfl

/-- Body lines of a formatted task are never task headers. -/
theorem mh_id (v : Str) : matchHeader (strL "- ID: " ++ v) = none := rfl

/-- The Project line is not a header. -/
theorem mh_project (v : Str) : matchHeader (strL "- Project: " ++ v) = none := rfl

/-- The Created line is not a header. -/
theorem mh_created (v : Str) : matchHeader (strL "- Created: " ++ v) = none := rfl

/-- The Context line is not a header. -/
theorem mh_context (v : Str) : matchHeader (strL "- Context: " ++ v) = none := rfl

/-- A blank line is not a header. -/
theorem mh_nil : matchHeader [] = none := rfl

/-- The header line written by `format_task` parses back to its priority
and title whenever the priority is one of `P0`–`P3` and the title is
non-empty. -/
theorem matchHeader_fmt {priority : Str} (title : Str)
    (hp : priority = strL "P0" ∨ priority = strL "P1" ∨ priority = strL "P2" ∨
      priority = strL "P3")
    (ht : title ≠ []) :
    matchHeader (strL "## [" ++ priority ++ (strL "] " ++ title)) =
      some (priority, title) := by
  rcases hp with h | h | h | h <;> subst h <;>
    · show (if _ then _ else _) = _
      rw [if_pos ⟨by simp, ht⟩]
      simp
      rfl

/-- A line without `'\n'` is a single physical line. -/
theorem splitLines_no_nl : ∀ {l : Str}, '\n' ∉ l → splitLines l = [l] := by
  intro l
  induction l with
  | nil => intro _; rfl
  | cons c r ih =>
    intro h
    have hc : ¬ c = '\n' := fun e => h (by rw [e]; exact List.mem_cons_self _ _)
    have hr : '\n' ∉ r := fun m => h (List.mem_cons_of_mem _ m)
    simp [splitLines, hc, ih hr]

/-- `takeWhile` passes over a block of lines that all satisfy the
predicate. -/
theorem takeWhile_append_all {α} (p : α → Bool) {xs ys : List α}
    (h : ∀ x ∈ xs, p x = true) :
    (xs ++ ys).takeWhile p = xs ++ ys.takeWhile p := by
  induction xs with
  | nil => simp
  | cons a l ih =>
    have ha : p a = true := h a (List.mem_cons_self _ _)
    simp only [List.cons_append, List.takeWhile_cons, ha, if_true]
    rw [ih (fun x hx => h x (List.mem_cons_of_mem _ hx))]

/-- An open block collects exactly the lines up to the next header. -/
theorem scanAux_open : ∀ (L : List Str) (p t : Str) (acc : List Str),
    (p, t, acc.reverse ++ L.takeWhile (fun l => (matchHeader l).isNone)) ∈
      scanAux L (some (p, t, acc)) := by
  intro L
  induction L with
  | nil => intro p t acc; simp [scanAux]
  | cons l ls ih =>
    intro p t acc
    cases hml : matchHeader l with
    | some pt =>
      simp only [scanAux, hml, List.takeWhile_cons, Option.isNone_some, Bool.false_eq_true,
        if_false, List.append_nil]
      exact List.mem_cons_self _ _
    | none =>
      have := ih p t (l :: acc)
      simp only [scanAux, hml, List.takeWhile_cons, Option.isNone_none, if_true]
      simpa [List.append_assoc] using this

/-- Wherever a header line occurs in the file, the scanner emits a block
with that header's priority and title and with the following lines (up to
the next header) as its body. -/
theorem scanAux_mem : ∀ (L1 : List Str) {hl p t : Str} (L2 : List Str)
    (cur : Option (Str × Str × List Str)), matchHeader hl = some (p, t) →
    (p, t, L2.takeWhile (fun l => (matchHeader l).isNone)) ∈
      scanAux (L1 ++ hl :: L2) cur := by
  intro L1
  induction L1 with
  | nil =>
    intro hl p t L2 cur h
    cases cur with
    | none =>
      simp only [List.nil_append, scanAux, h]
      simpa using scanAux_open L2 p t []
    | some c =>
      obtain ⟨p0, t0, b0⟩ := c
      simp only [List.nil_append, scanAux, h]
      exact List.mem_cons_of_mem _ (by simpa using scanAux_open L2 p t [])
  | cons a L1' ih =>
    intro hl p t L2 cur h
    cases hma : matchHeader a with
    | some pt =>
      obtain ⟨p1, t1⟩ := pt
      cases cur with
      | none =>
        simp only [List.cons_append, scanAux, hma]
        exact ih L2 _ h
      | some c =>
        obtain ⟨p0, t0, b0⟩ := c
        simp only [List.cons_append, scanAux, hma]
        exact List.mem_cons_of_mem _ (ih L2 _ h)
    | none =>
      cases cur with
      | none =>
        simp only [List.cons_append, scanAux, hma]
        exact ih L2 _ h
      | some c =>
        obtain ⟨p0, t0, b0⟩ := c
        simp only [List.cons_append, scanAux, hma]
        exact ih L2 _ h

/-- `write_tasks` of a non-empty record list, unfolded. -/
theorem fileLines_ne_nil (header : List Str) {ts : List Task} (h : ts ≠ []) :
    fileLines header ts =
      header ++ [[]] ++ (ts.flatMap formatRaw).flatMap splitLines := by
  cases ts with
  | nil => exact absurd rfl h
  | cons a l => rfl

/-- Absence distributes over appends. -/
theorem not_mem_append {α} {a : α} {x y : List α} (hx : a ∉ x) (hy : a ∉ y) :
    a ∉ x ++ y := fun h => (List.mem_append.mp h).elim hx hy

/-- The record `add_task` constructs before inserting it. -/
def mkNewTask (freshId today title project priority context : Str) : Task :=
  { id := freshId, title := title, priority := priority, project := project,
    created := today, context := context }

/-- **C5, counterexample.**  `add` does not round-trip for *every* field
string: with the priority string `"P4"` the formatted header line matches
no task-header pattern (`P[0-3]`), so the task added to an empty backlog
is invisible to the next `list(Backlog)` — no parsed task carries the
given title/priority/project/context. -/
theorem add_roundtrip_ce :
    ¬ ∃ u ∈ parse_tasks (strL "abcd1234") (strL "2026-01-01")
        (add_task (strL "abcd1234") (strL "2026-01-01") (strL "Fix bug")
          (strL "decent-cloud") (strL "P4") (strL "ctx") []).2,
      u.title = strL "Fix bug" ∧ u.priority = strL "P4" ∧
        u.project = strL "decent-cloud" ∧ u.context = strL "ctx" := by
  have h : parse_tasks (strL "abcd1234") (strL "2026-01-01")
      (add_task (strL "abcd1234") (strL "2026-01-01") (strL "Fix bug")
        (strL "decent-cloud") (strL "P4") (strL "ctx") []).2 = [] := rfl
  rw [h]
  simp

/-- **C5, amended.**  For every priority in `{P0, P1, P2, P3}` and every
title, project and context that are non-empty single-line strings equal
to their own `.strip()` (project and context additionally not starting
with the bold marker `"**"` that `_extract_field` strips), `add` followed
by `list(Backlog)` yields a task with identical title, priority, project
and context — whatever the prior contents of the backlog file. -/
theorem add_roundtrip (backlog : List Str)
    (freshId today title project priority context : Str)
    (hp : priority = strL "P0" ∨ priority = strL "P1" ∨ priority = strL "P2" ∨
      priority = strL "P3")
    (htitle : GoodCore title) (hproj : GoodVal project) (hctx : GoodVal context)
    (hfid : '\n' ∉ freshId) (hdate : '\n' ∉ today) :
    ∃ u ∈ parse_tasks freshId today
        (add_task freshId today title project priority context backlog).2,
      u.title = title ∧ u.priority = priority ∧ u.project = project ∧
        u.context = context := by
  obtain ⟨htne, htnl, htds, httr⟩ := htitle
  have hmem : mkNewTask freshId today title project priority context ∈
      sortTasks (parse_tasks freshId today backlog ++
        [mkNewTask freshId today title project priority context]) := by
    unfold sortTasks
    rw [List.mem_insertionSort]
    simp
  obtain ⟨as, bs, hsort⟩ := List.append_of_mem hmem
  have hout : (add_task freshId today title project priority context backlog).2 =
      fileLines backlogHeader
        (as ++ mkNewTask freshId today title project priority context :: bs) := by
    show fileLines backlogHeader (sortTasks (parse_tasks freshId today backlog ++
      [mkNewTask freshId today title project priority context])) = _
    rw [hsort]
  -- the six physical lines of the new task's block
  have hnlp : '\n' ∉ priority := by
    rcases hp with h | h | h | h <;> subst h <;> decide
  have hs0 : splitLines (strL "## [" ++ priority ++ strL "] " ++ title) =
      [strL "## [" ++ priority ++ strL "] " ++ title] :=
    splitLines_no_nl (not_mem_append
      (not_mem_append (not_mem_append (by decide) hnlp) (by decide)) htnl)
  have hs1 : splitLines (strL "- ID: " ++ freshId) = [strL "- ID: " ++ freshId] :=
    splitLines_no_nl (not_mem_append (by decide) hfid)
  have hs2 : splitLines (strL "- Project: " ++ project) =
      [strL "- Project: " ++ project] :=
    splitLines_no_nl (not_mem_append (by decide) hproj.1.2.1)
  have hs3 : splitLines (strL "- Created: " ++ today) = [strL "- Created: " ++ today] :=
    splitLines_no_nl (not_mem_append (by decide) hdate)
  have hs4 : splitLines (strL "- Context: " ++ context) =
      [strL "- Context: " ++ context] :=
    splitLines_no_nl (not_mem_append (by decide) hctx.1.2.1)
  have hflat : (formatRaw
      (mkNewTask freshId today title project priority context)).flatMap splitLines =
      [strL "## [" ++ priority ++ strL "] " ++ title,
       strL "- ID: " ++ freshId, strL "- Project: " ++ project,
       strL "- Created: " ++ today, strL "- Context: " ++ context, []] := by
    show ([strL "## [" ++ priority ++ strL "] " ++ title,
       strL "- ID: " ++ freshId, strL "- Project: " ++ project,
       strL "- Created: " ++ today] ++ ([] ++ [] ++ [] ++ [] ++ []) ++
       [strL "- Context: " ++ context, []]).flatMap splitLines = _
    simp only [List.append_nil, List.nil_append, List.cons_append, List.flatMap_cons,
      List.flatMap_nil, hs0, hs1, hs2, hs3, hs4]
    rfl
  have hfile : (add_task freshId today title project priority context backlog).2 =
      (backlogHeader ++ [[]] ++ (as.flatMap formatRaw).flatMap splitLines) ++
        (strL "## [" ++ priority ++ strL "] " ++ title) ::
          ([strL "- ID: " ++ freshId, strL "- Project: " ++ project,
            strL "- Created: " ++ today, strL "- Context: " ++ context, []] ++
           (bs.flatMap formatRaw).flatMap splitLines) := by
    rw [hout, fileLines_ne_nil _ (by simp)]
    simp only [List.flatMap_append, List.flatMap_cons]
    rw [hflat]
    simp [List.append_assoc]
  have hL0 : matchHeader (strL "## [" ++ priority ++ strL "] " ++ title) =
      some (priority, title) := by
    have he : strL "## [" ++ priority ++ strL "] " ++ title =
        strL "## [" ++ priority ++ (strL "] " ++ title) := by
      simp [List.append_assoc]
    rw [he]
    exact matchHeader_fmt title hp htne
  have hbody : ([strL "- ID: " ++ freshId, strL "- Project: " ++ project,
      strL "- Created: " ++ today, strL "- Context: " ++ context, []] ++
      (bs.flatMap formatRaw).flatMap splitLines).takeWhile
        (fun l => (matchHeader l).isNone) =
      [strL "- ID: " ++ freshId, strL "- Project: " ++ project,
       strL "- Created: " ++ today, strL "- Context: " ++ context, []] ++
      ((bs.flatMap formatRaw).flatMap splitLines).takeWhile
        (fun l => (matchHeader l).isNone) := by
    refine takeWhile_append_all _ ?_
    intro x hx
    simp only [List.mem_cons, List.not_mem_nil, or_false] at hx
    rcases hx with h | h | h | h | h <;> subst h <;> rfl
  have hscan := scanAux_mem
    (backlogHeader ++ [[]] ++ (as.flatMap formatRaw).flatMap splitLines)
    ([strL "- ID: " ++ freshId, strL "- Project: " ++ project,
      strL "- Created: " ++ today, strL "- Context: " ++ context, []] ++
     (bs.flatMap formatRaw).flatMap splitLines) none hL0
  rw [hbody] at hscan
  refine ⟨mkTask freshId today priority title
      ([strL "- ID: " ++ freshId, strL "- Project: " ++ project,
        strL "- Created: " ++ today, strL "- Context: " ++ context, []] ++
       ((bs.flatMap formatRaw).flatMap splitLines).takeWhile
         (fun l => (matchHeader l).isNone)), ?_, ?_, ?_, ?_, ?_⟩
  · rw [hfile]
    exact List.mem_map_of_mem _ hscan
  · show trim title = title
    exact trim_of_good ⟨htne, htnl, htds, httr⟩
  · rfl
  · show (getField (strL "Project")
        ((strL "- ID: " ++ freshId) :: (strL "- Project: " ++ project) ::
         (strL "- Created: " ++ today) :: (strL "- Context: " ++ context) :: [] ::
         ((bs.flatMap formatRaw).flatMap splitLines).takeWhile
           (fun l => (matchHeader l).isNone))).getD (strL "unknown") = project
    have e1 : extractField (strL "Project")
        ((strL "- ID: " ++ freshId) :: (strL "- Project: " ++ project) ::
         (strL "- Created: " ++ today) :: (strL "- Context: " ++ context) :: [] ::
         ((bs.flatMap formatRaw).flatMap splitLines).takeWhile
           (fun l => (matchHeader l).isNone)) = some project := by
      rw [extractField_cons_none (fp_project_id freshId),
        extractField_cons_some (fp_project_self project)]
      exact fieldValueFrom_good _ hproj
    rw [getField_of_value e1 hproj.1.1]
    rfl
  · show (getField (strL "Context")
        ((strL "- ID: " ++ freshId) :: (strL "- Project: " ++ project) ::
         (strL "- Created: " ++ today) :: (strL "- Context: " ++ context) :: [] ::
         ((bs.flatMap formatRaw).flatMap splitLines).takeWhile
           (fun l => (matchHeader l).isNone))).getD _ = context
    have e2 : extractField (strL "Context")
        ((strL "- ID: " ++ freshId) :: (strL "- Project: " ++ project) ::
         (strL "- Created: " ++ today) :: (strL "- Context: " ++ context) :: [] ::
         ((bs.flatMap formatRaw).flatMap splitLines).takeWhile
           (fun l => (matchHeader l).isNone)) = some context := by
      rw [extractField_cons_none (fp_context_id freshId),
        extractField_cons_none (fp_context_project project),
        extractField_cons_none (fp_context_created today),
        extractField_cons_some (fp_context_self context)]
      exact fieldValueFrom_good _ hctx
    rw [getField_of_value e2 hctx.1.1]
    rfl

/-- Witness for the amended C5 on a concrete well-formed task. -/
theorem add_roundtrip_witness :
    ∃ u ∈ parse_tasks (strL "abcd1234") (strL "2026-01-01")
        (add_task (strL "abcd1234") (strL "2026-01-01") (strL "Fix bug")
          (strL "decent-cloud") (strL "P0") (strL "ctx") []).2,
      u.title = strL "Fix bug" ∧ u.priority = strL "P0" ∧
        u.project = strL "decent-cloud" ∧ u.context = strL "ctx" :=
  add_roundtrip [] (strL "abcd1234") (strL "2026-01-01") (strL "Fix bug")
    (strL "decent-cloud") (strL "P0") (strL "ctx")
    (Or.inl rfl) (by decide) (by decide) (by decide) (by decide) (by decide)

end DevTasks
